import Mathlib

/-!
Shallow embedding of the DQ profiling engine (src/Desktop/DQ/app/dq_profiler.py,
with its configuration constants from src/Desktop/DQ/app/config.py), together
with theorems settling the frozen claims about it.

Modelling conventions:
- Python floats are modelled as exact rationals; the float arithmetic the code
  performs on the profiled values (sums, divisions) is carried out exactly.
- The standard-deviation field stores the sample variance (the square of the
  value the code stores), since a square root leaves the rationals; claims
  about std are phrased through its square.
- Cell values of a materialized polars frame are modelled by Val (numeric or
  text), a null cell by none : Option Val.
- polars semantics followed by the embedding: Series.len counts nulls;
  null-skipping aggregations (min, max, mean, std, quantile) return null when
  no non-null value remains, and std with ddof=1 returns null when fewer than
  two non-null samples exist; Python float(None) raises TypeError, modelled by
  PyError.typeError; Series.n_unique and Series.value_counts treat null as a
  value of its own; Series.value_counts returns a frame whose value column is
  named after the series and whose count column is named count, so the dict
  access row["values"] in _profile_categorical raises KeyError for every
  non-empty series not itself named "values", modelled by PyError.keyError.
- Series.unique is invoked by the code with its default maintain_order=False,
  whose output order is unspecified; the embedding fixes first-seen order as
  one deterministic refinement of it.
-/

deriving instance DecidableEq for Except

namespace DQ

/-- Cell value of a materialized column: a numeric value or a text value. -/
inductive Val where
  | num (q : ℚ)
  | str (s : String)
deriving DecidableEq

/-- Numeric content of a value, when it has one. -/
def Val.asNum : Val → Option ℚ
  | .num q => some q
  | .str _ => none

/-- Lowercasing of a Python string (str.lower), per character. -/
def strToLower (s : String) : String := ⟨s.data.map Char.toLower⟩

/-- Check that the character list s begins with the character list p. -/
def listBegins : List Char → List Char → Bool
  | [], _ => true
  | _ :: _, [] => false
  | p :: ps, c :: cs => p == c && listBegins ps cs

/-- Python str.endswith t for s. -/
def strEndsWith (s t : String) : Bool := listBegins t.data.reverse s.data.reverse

/-- Python str.startswith t for s. -/
def strBeginsWith (s t : String) : Bool := listBegins t.data s.data

/-- Python exceptions the profiler can raise: ValueError with a message
(raised by the loader for an unsupported extension), the TypeError raised by
float(None), and the KeyError raised by the dict access row["values"] in
_profile_categorical. -/
inductive PyError where
  | valueError (msg : String)
  | typeError
  | keyError (key : String)
deriving DecidableEq

/-- Discriminator for the ValueError kind. -/
def PyError.isValueError : PyError → Bool
  | .valueError _ => true
  | .typeError => false
  | .keyError _ => false

/-- The two scan plans the loader can build. -/
inductive SourceFormat where
  | parquet
  | csv
deriving DecidableEq

/-- Embeds _load_lazy: lowercase the path, accept .parquet / .pq / .csv,
raise ValueError otherwise. Only the format gate is modelled; the scanned
contents are supplied separately to profile_dataset, mirroring that the gate
runs before any read of the file. -/
def load_lazy (path : String) : Except PyError SourceFormat :=
  if strEndsWith (strToLower path) ".parquet" || strEndsWith (strToLower path) ".pq" then
    .ok .parquet
  else if strEndsWith (strToLower path) ".csv" then
    .ok .csv
  else
    .error (.valueError ("Unsupported file type for " ++ path))

/-- The NUMERIC_DTYPES catalog of dq_profiler.py. -/
def NUMERIC_DTYPES : List String :=
  ["Int8", "Int16", "Int32", "Int64",
   "UInt8", "UInt16", "UInt32", "UInt64",
   "Float32", "Float64"]

/-- Embeds _is_numeric_dtype (membership of the dtype string in the catalog). -/
def is_numeric_dtype (dtype : String) : Bool := NUMERIC_DTYPES.contains dtype

/-- Embeds _is_datetime_dtype. -/
def is_datetime_dtype (dtype : String) : Bool :=
  dtype == "Date" || strBeginsWith dtype "Datetime"

/-- Embeds _is_categorical_dtype. -/
def is_categorical_dtype (dtype : String) : Bool :=
  dtype == "Utf8" || dtype == "Categorical"

/-- Minimum of a list of rationals, none when empty (polars min over the
non-null values). -/
def listMin : List ℚ → Option ℚ
  | [] => none
  | x :: xs => some (xs.foldl min x)

/-- Maximum of a list of rationals, none when empty. -/
def listMax : List ℚ → Option ℚ
  | [] => none
  | x :: xs => some (xs.foldl max x)

/-- Mean of a list of rationals, none when empty (polars mean skips nulls,
null when no value remains). -/
def listMean (l : List ℚ) : Option ℚ :=
  if l.length = 0 then none else some (l.sum / (l.length : ℚ))

/-- Sample variance (ddof = 1) of a list of rationals, none when fewer than
two samples (polars std returns null there). The code stores the square root
of this quantity. -/
def listVarSample (l : List ℚ) : Option ℚ :=
  if 2 ≤ l.length then
    some (((l.map (fun x => (x - l.sum / (l.length : ℚ)) ^ 2)).sum) / (((l.length - 1 : ℕ)) : ℚ))
  else none

/-- Insertion into an ascending list. -/
def insertAsc (x : ℚ) : List ℚ → List ℚ
  | [] => [x]
  | y :: ys => if x ≤ y then x :: y :: ys else y :: insertAsc x ys

/-- Ascending insertion sort. -/
def sortAsc (l : List ℚ) : List ℚ := l.foldr insertAsc []

/-- Round half up to a natural number (for the non-negative rank positions
used by the nearest quantile). -/
def roundHalfUp (q : ℚ) : ℕ := (⌊q + 1 / 2⌋).toNat

/-- Quantile with nearest-rank interpolation over the non-null values, none
when empty: index round(q * (n - 1)) into the sorted values. -/
def quantileNearest (l : List ℚ) (q : ℚ) : Option ℚ :=
  match sortAsc l with
  | [] => none
  | x :: xs =>
    some ((x :: xs).getD (min (roundHalfUp (q * (((l.length - 1 : ℕ)) : ℚ))) (l.length - 1)) x)

/-- Python float(o) applied to a possibly-null aggregation result: TypeError
on None. -/
def pyFloat : Option ℚ → Except PyError ℚ
  | some q => .ok q
  | none => .error .typeError

/-- The numeric_stats block. stdSq holds the square of the std value the code
stores (the sample variance); std = 0.0 corresponds to stdSq = some 0. -/
structure NumericStats where
  min : Option ℚ
  max : Option ℚ
  mean : Option ℚ
  stdSq : Option ℚ
  p25 : Option ℚ
  p50 : Option ℚ
  p75 : Option ℚ
deriving DecidableEq

/-- Embeds the std field expression of _profile_numeric: float(series.std())
when series.len() > 1 (the length counting nulls, exactly as in the source),
the literal 0.0 floor otherwise. The stored quantity is the variance, the
square of the std the code stores. -/
def stdField (xs : List (Option ℚ)) (nn : List ℚ) : Except PyError ℚ :=
  if 1 < xs.length then pyFloat (listVarSample nn) else pure 0

/-- Embeds _profile_numeric. The argument is the full series including nulls
(series.len() counts nulls); aggregations run over the non-null values. Each
field goes through float(), so a null aggregate raises TypeError; the order of
failures is irrelevant because every failure is the same TypeError. -/
def profile_numeric (xs : List (Option ℚ)) : Except PyError NumericStats :=
  if xs.length = 0 then
    .ok ⟨none, none, none, none, none, none, none⟩
  else
    let nn := xs.filterMap id
    do
      let mn ← pyFloat (listMin nn)
      let mx ← pyFloat (listMax nn)
      let me ← pyFloat (listMean nn)
      let sd ← stdField xs nn
      let q1 ← pyFloat (quantileNearest nn (1 / 4))
      let q2 ← pyFloat (quantileNearest nn (1 / 2))
      let q3 ← pyFloat (quantileNearest nn (3 / 4))
      pure ⟨some mn, some mx, some me, some sd, some q1, some q2, some q3⟩

/-- First-seen-order deduplication, carrying the set of already-seen
elements. -/
def dedupFSAux {α : Type} [DecidableEq α] (seen : List α) : List α → List α
  | [] => []
  | x :: xs => if x ∈ seen then dedupFSAux seen xs else x :: dedupFSAux (x :: seen) xs

/-- First-seen-order deduplication of a list. -/
def dedupFS {α : Type} [DecidableEq α] (l : List α) : List α := dedupFSAux [] l

/-- Embeds Series.value_counts: one (value, count) pair per distinct cell
value of the series, null included as a value of its own. -/
def valueCounts (vals : List (Option Val)) : List (Option Val × ℕ) :=
  (dedupFS vals).map (fun v => (v, vals.count v))

/-- Insertion into a list sorted by descending count. -/
def insertDescByCount (p : Option Val × ℕ) :
    List (Option Val × ℕ) → List (Option Val × ℕ)
  | [] => [p]
  | q :: qs => if p.2 ≤ q.2 then q :: insertDescByCount p qs else p :: q :: qs

/-- Sort (value, count) pairs by descending count. -/
def sortDescByCount (l : List (Option Val × ℕ)) : List (Option Val × ℕ) :=
  l.foldr insertDescByCount []

/-- The categorical_stats block. A top_k entry value of none records that the
null group itself made the top-k. -/
structure CategoricalStats where
  top_k : List (Option Val × ℕ)
deriving DecidableEq

/-- Embeds _profile_categorical, which receives the series of a column and so
carries the column name. An empty series (series.len() == 0, nulls counted)
returns an empty top_k before touching value_counts. Otherwise value_counts
returns a frame whose value column is named after the series and whose count
column is named count; the code sorts by count descending, keeps the head,
and then reads row["values"] from each iter_rows(named=True) dict - a key
that exists only when the series itself is named "values". For any other
name the first row access raises KeyError, aborting the profiling request;
when the name is "values" the comprehension yields the sorted, capped
(value, count) pairs. -/
def profile_categorical (name : String) (vals : List (Option Val)) (top_k : ℕ) :
    Except PyError CategoricalStats :=
  if vals.length = 0 then .ok ⟨[]⟩
  else if name = "values" then .ok ⟨(sortDescByCount (valueCounts vals)).take top_k⟩
  else .error (.keyError "values")

/-- Embeds _sample_values: drop nulls, deduplicate, keep the first
max_samples. The order of Series.unique with its default maintain_order=False
is unspecified; first-seen order is the deterministic refinement fixed here. -/
def sample_values (vals : List (Option Val)) (max_samples : ℕ := 5) : List Val :=
  (dedupFS (vals.filterMap id)).take max_samples

/-- Comparison used to take min and max of datetime-classed cell values. -/
def valLeb : Val → Val → Bool
  | .num a, .num b => decide (a ≤ b)
  | .num _, .str _ => true
  | .str _, .num _ => false
  | .str a, .str b => decide (a ≤ b)

/-- Minimum of a list of values under valLeb, none when empty. -/
def listMinBy : List Val → Option Val
  | [] => none
  | x :: xs => some (xs.foldl (fun a b => if valLeb a b then a else b) x)

/-- Maximum of a list of values under valLeb, none when empty. -/
def listMaxBy : List Val → Option Val
  | [] => none
  | x :: xs => some (xs.foldl (fun a b => if valLeb a b then b else a) x)

/-- Rendering of a cell value as a string (abstraction of Python str). -/
def showVal : Val → String
  | .num q => toString q.num ++ "/" ++ toString q.den
  | .str s => s

/-- The datetime_stats block: canonical string forms of min and max. -/
structure DatetimeStats where
  min : Option String
  max : Option String
deriving DecidableEq

/-- One column profile, with the three optional class-specific blocks. -/
structure ColumnProfile where
  position : ℕ
  dtype : String
  non_null_count : ℤ
  null_count : ℕ
  completeness : ℚ
  distinct_count : ℕ
  uniqueness : ℚ
  sample_values : List Val
  numeric_stats : Option NumericStats := none
  datetime_stats : Option DatetimeStats := none
  categorical_stats : Option CategoricalStats := none
deriving DecidableEq

/-- One materialized column: name, dtype string, cells (none = null). -/
structure Column where
  name : String
  dtype : String
  vals : List (Option Val)
deriving DecidableEq

/-- A materialized frame as the scan of the whole file would produce it:
its physical row count and its columns in physical order. -/
structure Frame where
  height : ℕ
  cols : List Column
deriving DecidableEq

/-- Well-formedness of a frame: every column has exactly height cells. -/
def Frame.WF (f : Frame) : Prop := ∀ c ∈ f.cols, c.vals.length = f.height

instance (f : Frame) : Decidable f.WF := by
  unfold Frame.WF; infer_instance

/-- Truncation of a frame to its first n rows (the head of the lazy plan). -/
def Frame.truncate (n : ℕ) (f : Frame) : Frame :=
  ⟨min n f.height, f.cols.map (fun c => { c with vals := c.vals.take n })⟩

/-- Configuration record: MAX_ROWS_PROFILE and MAX_TOP_K of config.py
(defaults 100000 and 5), threaded explicitly. -/
structure Config where
  maxRows : ℕ
  topK : ℕ
deriving DecidableEq

/-- The default configuration of config.py. -/
def defaultConfig : Config := ⟨100000, 5⟩

/-- The dataset profile returned by profile_dataset; columns is an ordered
association list, mirroring Python dict insertion order. -/
structure DatasetProfile where
  dataset_name : String
  path : String
  row_count : ℕ
  column_count : ℕ
  columns : List (String × ColumnProfile)
deriving DecidableEq

/-- Embeds os.path.basename: the part of the path after the last slash. -/
def basename (p : String) : String :=
  ⟨p.data.foldl (fun acc c => if c = '/' then [] else acc ++ [c]) []⟩

/-- Embeds the col_profile dict built first in the loop of profile_dataset:
the base metrics of one column, computed from the truncated series.
row_count is the materialized row count of the truncated frame; the code
derives non_null_count as row_count - null_count. -/
def baseProfile (row_count : ℕ) (idx : ℕ) (c : Column) : ColumnProfile :=
  { position := idx, dtype := c.dtype,
    non_null_count := (row_count : ℤ) - (c.vals.count none : ℤ),
    null_count := c.vals.count none,
    completeness :=
      if 0 < row_count then
        (((row_count : ℤ) - (c.vals.count none : ℤ) : ℤ) : ℚ) / (row_count : ℚ)
      else 0,
    distinct_count := (dedupFS c.vals).length,
    uniqueness :=
      if 0 < (row_count : ℤ) - (c.vals.count none : ℤ) then
        ((dedupFS c.vals).length : ℚ) / (((row_count : ℤ) - (c.vals.count none : ℤ) : ℤ) : ℚ)
      else 0,
    sample_values := sample_values c.vals }

/-- Embeds the per-column body of the loop in profile_dataset: the base
metrics, then the class-specific block selected by the dtype. -/
def profileColumn (row_count : ℕ) (cfg : Config) (idx : ℕ) (c : Column) :
    Except PyError ColumnProfile :=
  let s := c.vals
  if is_numeric_dtype c.dtype then do
    let ns ← profile_numeric (s.map (fun o => o.bind Val.asNum))
    pure { baseProfile row_count idx c with numeric_stats := some ns }
  else if is_datetime_dtype c.dtype then
    let dts : DatetimeStats :=
      if 0 < (row_count : ℤ) - (s.count none : ℤ) then
        ⟨(listMinBy (s.filterMap id)).map showVal, (listMaxBy (s.filterMap id)).map showVal⟩
      else
        ⟨none, none⟩
    pure { baseProfile row_count idx c with datetime_stats := some dts }
  else if is_categorical_dtype c.dtype then do
    let cs ← profile_categorical c.name s cfg.topK
    pure { baseProfile row_count idx c with categorical_stats := some cs }
  else
    pure (baseProfile row_count idx c)

/-- The column loop of profile_dataset, threading the enumerate index. -/
def profileColumns (row_count : ℕ) (cfg : Config) :
    ℕ → List Column → Except PyError (List (String × ColumnProfile))
  | _, [] => .ok []
  | idx, c :: cs => do
    let p ← profileColumn row_count cfg idx c
    let rest ← profileColumns row_count cfg (idx + 1) cs
    pure ((c.name, p) :: rest)

/-- Embeds profile_dataset: format gate, truncation of the plan to the row
cap, materialized row count, then the per-column loop and assembly. The frame
f stands for what a full scan of the file at the given path would produce. -/
def profile_dataset (path : String) (f : Frame) (cfg : Config) :
    Except PyError DatasetProfile := do
  let _fmt ← load_lazy path
  let colProfs ← profileColumns (min cfg.maxRows f.height) cfg 0
      (f.cols.map (fun c => { c with vals := c.vals.take cfg.maxRows }))
  pure { dataset_name := basename path, path := path,
         row_count := min cfg.maxRows f.height,
         column_count := (f.cols.map (fun c => { c with vals := c.vals.take cfg.maxRows })).length,
         columns := colProfs }

/-- Column profiles of a profiling result, empty when the run failed. -/
def colProfilesOf (r : Except PyError DatasetProfile) : List ColumnProfile :=
  match r with
  | .ok p => p.columns.map Prod.snd
  | .error _ => []

/-- Reported row count of a profiling result, none when the run failed. -/
def rowCountOf (r : Except PyError DatasetProfile) : Option ℕ :=
  match r with
  | .ok p => some p.row_count
  | .error _ => none

/-- Error of a profiling result, none when the run succeeded. -/
def errOf (r : Except PyError DatasetProfile) : Option PyError :=
  match r with
  | .ok _ => none
  | .error e => some e

/-- Placeholder column profile used as the default of list lookups in closed
statements. -/
def dummyColumnProfile : ColumnProfile :=
  { position := 0, dtype := "", non_null_count := 0, null_count := 0,
    completeness := 0, distinct_count := 0, uniqueness := 0, sample_values := [] }

/-- Frame of a one-column Int64 dataset with cells [1, 2, null]: the numeric
path succeeds here, and null makes n_unique exceed the non-null count. -/
def intMixFrame : Frame :=
  ⟨3, [⟨"x", "Int64", [some (.num 1), some (.num 2), none]⟩]⟩

/-- Frame of a one-column null-free Int64 dataset with cells [1, 2]. -/
def intNoNullFrame : Frame := ⟨2, [⟨"x", "Int64", [some (.num 1), some (.num 2)]⟩]⟩

/-- Frame of the Scenario C categorical dataset: one Utf8 column named c with
cells [a, a, b, c]. -/
def catFrame : Frame :=
  ⟨4, [⟨"c", "Utf8",
       [some (.str "a"), some (.str "a"), some (.str "b"), some (.str "c")]⟩]⟩

/-- Frame of a one-column Int64 dataset whose single row is null. -/
def intNullColFrame : Frame := ⟨1, [⟨"x", "Int64", [none]⟩]⟩

/-- Frame of a one-column Int64 dataset with cells [10, null]: exactly one
non-null value next to a null. -/
def intOneValFrame : Frame := ⟨2, [⟨"x", "Int64", [some (.num 10), none]⟩]⟩

/-- Frame of Scenario A: one Float64 column with cells [10, 20, null]. -/
def scenarioAFrame : Frame :=
  ⟨3, [⟨"x", "Float64", [some (.num 10), some (.num 20), none]⟩]⟩

/-- Frame of Scenario D: one Int64 column with 200000 physical non-null
rows (a numeric column, whose profiling path succeeds). -/
def bigFrame : Frame :=
  ⟨200000, [⟨"x", "Int64", List.replicate 200000 (some (.num 1))⟩]⟩

/-- The single column of the Scenario D frame after truncation to the
default row cap. -/
def bigColTrunc : Column :=
  { name := "x", dtype := "Int64",
    vals := (List.replicate 200000 (some (Val.num 1))).take defaultConfig.maxRows }

/-- Small null-free two-row Utf8 frame used by closed instantiations. -/
def testFrame : Frame := ⟨2, [⟨"c", "Utf8", [some (.str "a"), some (.str "b")]⟩]⟩

end DQ

namespace DQ

lemma listBegins_self_append (l r : List Char) : listBegins l (l ++ r) = true := by
  induction l with
  | nil => rfl
  | cons x xs ih => simp [listBegins, ih]

lemma strToLower_append (s t : String) :
    strToLower (s ++ t) = strToLower s ++ strToLower t := by
  apply String.ext
  simp [strToLower, String.data_append]

lemma strEndsWith_append_self (s t : String) : strEndsWith (s ++ t) t = true := by
  show listBegins t.data.reverse (s ++ t).data.reverse = true
  rw [String.data_append, List.reverse_append]
  exact listBegins_self_append _ _

/-- Claim C7: an input path whose lowercased form ends in none of the
supported extensions makes profile_dataset fail with the unsupported-format
ValueError, for every possible file contents and configuration (so the error
precedes any read, and no profile is produced). -/
theorem claim_C7_unsupported_format (path : String) (f : Frame) (cfg : Config)
    (h1 : strEndsWith (strToLower path) ".parquet" = false)
    (h2 : strEndsWith (strToLower path) ".pq" = false)
    (h3 : strEndsWith (strToLower path) ".csv" = false) :
    profile_dataset path f cfg =
      .error (.valueError ("Unsupported file type for " ++ path)) := by
  have hl : load_lazy path =
      .error (.valueError ("Unsupported file type for " ++ path)) := by
    unfold load_lazy
    rw [h1, h2, h3]
    simp
  simp [profile_dataset, hl, Bind.bind, Except.bind]

/-- Witness for claim C7 at the concrete path data.json. -/
theorem claim_C7_unsupported_format_witness :
    profile_dataset "data.json" testFrame defaultConfig =
      .error (.valueError ("Unsupported file type for " ++ "data.json")) :=
  claim_C7_unsupported_format "data.json" testFrame defaultConfig
    (by decide) (by decide) (by decide)

/-- Claim C1 (code behavior at the failing input): the all-null block is
produced only for a series of length zero, because the guard tests
series.len(), which counts nulls; a numeric column with one row that is null
reaches the aggregation branch, where min over an all-null series is null and
float(None) raises TypeError, so profiling the dataset fails instead of
emitting the all-null numeric_stats block. -/
theorem claim_C1_zero_nonnull_crash :
    profile_numeric ([] : List (Option ℚ)) =
      .ok ⟨none, none, none, none, none, none, none⟩ ∧
    profile_numeric [(none : Option ℚ)] = .error .typeError ∧
    profile_dataset "t.csv" intNullColFrame defaultConfig = .error .typeError := by
  refine ⟨rfl, rfl, ?_⟩
  decide

/-- Claim C3 (code behavior at the failing input): the std = 0.0 floor is
keyed on series.len() > 1, a length that counts nulls; with exactly one
non-null value and no nulls the floor applies, but with one non-null value
next to a null the code calls float on a null std (one sample, ddof = 1) and
raises TypeError. -/
theorem claim_C3_std_floor_crash :
    profile_numeric [some (10 : ℚ)] =
      .ok ⟨some 10, some 10, some 10, some 0, some 10, some 10, some 10⟩ ∧
    profile_numeric [some (10 : ℚ), none] = .error .typeError ∧
    profile_dataset "t.csv" intOneValFrame defaultConfig = .error .typeError := by
  refine ⟨?_, rfl, by decide⟩
  simp +decide [profile_numeric, stdField, listMin, listMax, listMean, listVarSample,
    quantileNearest, sortAsc, insertAsc, roundHalfUp, pyFloat,
    Bind.bind, Except.bind, pure, Except.pure]

lemma mem_insertDescByCount {p x : Option Val × ℕ} {l : List (Option Val × ℕ)} :
    x ∈ insertDescByCount p l ↔ x = p ∨ x ∈ l := by
  induction l with
  | nil => simp [insertDescByCount]
  | cons q qs ih =>
    unfold insertDescByCount
    split
    · simp only [List.mem_cons, ih]
      try tauto
    · simp only [List.mem_cons]
      try tauto

lemma pairwise_insertDescByCount {p : Option Val × ℕ} {l : List (Option Val × ℕ)}
    (h : List.Pairwise (fun a b => b.2 ≤ a.2) l) :
    List.Pairwise (fun a b => b.2 ≤ a.2) (insertDescByCount p l) := by
  induction l with
  | nil => simp [insertDescByCount]
  | cons q qs ih =>
    rw [List.pairwise_cons] at h
    obtain ⟨hq, hqs⟩ := h
    unfold insertDescByCount
    split
    · rw [List.pairwise_cons]
      refine ⟨fun x hx => ?_, ih hqs⟩
      rcases mem_insertDescByCount.mp hx with hxp | hxm
      · subst hxp; assumption
      · exact hq x hxm
    · rename_i hlt
      rw [List.pairwise_cons]
      refine ⟨fun x hx => ?_, List.pairwise_cons.mpr ⟨hq, hqs⟩⟩
      rcases List.mem_cons.mp hx with hxq | hxm
      · subst hxq; exact le_of_lt (lt_of_not_le hlt)
      · exact le_trans (hq x hxm) (le_of_lt (lt_of_not_le hlt))

lemma sortDescByCount_pairwise (l : List (Option Val × ℕ)) :
    List.Pairwise (fun a b => b.2 ≤ a.2) (sortDescByCount l) := by
  induction l with
  | nil => simp [sortDescByCount]
  | cons a t ih => exact pairwise_insertDescByCount ih

lemma mem_sortDescByCount {x : Option Val × ℕ} {l : List (Option Val × ℕ)} :
    x ∈ sortDescByCount l ↔ x ∈ l := by
  induction l with
  | nil => simp [sortDescByCount]
  | cons a t ih =>
    show x ∈ insertDescByCount a (sortDescByCount t) ↔ _
    rw [mem_insertDescByCount, ih, List.mem_cons]
    try tauto

lemma dedupFSAux_subset {α : Type} [DecidableEq α] (l : List α) :
    ∀ seen, dedupFSAux seen l ⊆ l := by
  induction l with
  | nil => intro seen x hx; simp [dedupFSAux] at hx
  | cons a t ih =>
    intro seen x hx
    unfold dedupFSAux at hx
    split at hx
    · exact List.mem_cons_of_mem a (ih seen hx)
    · rcases List.mem_cons.mp hx with hxa | hxm
      · exact hxa ▸ List.mem_cons_self a t
      · exact List.mem_cons_of_mem a (ih (a :: seen) hxm)

lemma mem_valueCounts {p : Option Val × ℕ} {vals : List (Option Val)}
    (h : p ∈ valueCounts vals) : p.2 = vals.count p.1 ∧ p.1 ∈ vals := by
  unfold valueCounts at h
  rcases List.mem_map.mp h with ⟨v, hv, hp⟩
  subst hp
  exact ⟨rfl, dedupFSAux_subset vals [] hv⟩

/-- Claim C6 (code behavior at the failing input): value_counts names its
value column after the series and its count column count, so the dict access
row["values"] raises KeyError on every non-empty categorical column not
itself named "values"; profiling the Scenario C column ["a","a","b","c"]
aborts with KeyError instead of producing top_k. Only an empty series escapes
the access, and only a column literally named "values" reaches the intended
group-count-sort-cap pipeline. -/
theorem claim_C6_keyerror_crash :
    profile_categorical "c"
      [some (.str "a"), some (.str "a"), some (.str "b"), some (.str "c")] 5 =
      .error (.keyError "values") ∧
    profile_categorical "c" [] 5 = .ok ⟨[]⟩ ∧
    profile_categorical "values"
      [some (.str "a"), some (.str "a"), some (.str "b"), some (.str "c")] 5 =
      .ok ⟨[(some (.str "a"), 2), (some (.str "c"), 1), (some (.str "b"), 1)]⟩ ∧
    profile_dataset "t.csv" catFrame defaultConfig = .error (.keyError "values") := by
  refine ⟨by decide, by decide, by decide, by decide⟩

/-- Counterexample for claim C4: on the numeric column [10, 20, null] the
code computes the sample standard deviation with ddof = 1 over the two
non-null points, whose square is 50, so std = sqrt 50 > 11/2; the claimed
std of approximately 5.0 (whose square is 25) is wrong. -/
theorem claim_C4_counterexample :
    profile_numeric [some (10 : ℚ), some 20, none] =
      .ok ⟨some 10, some 20, some 15, some 50, some 10, some 20, some 20⟩ ∧
    ((11 / 2 : ℚ) ^ 2 < 50 ∧ (50 : ℚ) ≠ 5 ^ 2) := by
  refine ⟨?_, by norm_num, by norm_num⟩
  simp +decide [profile_numeric, stdField, listMin, listMax, listMean, listVarSample,
    quantileNearest, sortAsc, insertAsc, roundHalfUp, pyFloat,
    Bind.bind, Except.bind, pure, Except.pure]
  norm_num

/-- Claim C4 as amended: profiling Scenario A yields non_null_count = 2,
null_count = 1, completeness = 2/3, numeric_stats.min = 10, max = 20,
mean = 15, and a std whose square is 50 (std = sqrt 50, approximately
7.0711), not 5.0. -/
theorem claim_C4_scenario_A :
    profile_dataset "a.csv" scenarioAFrame defaultConfig =
      .ok { dataset_name := "a.csv", path := "a.csv", row_count := 3,
            column_count := 1,
            columns := [("x",
              { position := 0, dtype := "Float64", non_null_count := 2,
                null_count := 1, completeness := 2 / 3, distinct_count := 3,
                uniqueness := 3 / 2,
                sample_values := [.num 10, .num 20],
                numeric_stats :=
                  some ⟨some 10, some 20, some 15, some 50,
                        some 10, some 20, some 20⟩ })] } := by
  simp +decide [profile_dataset, profileColumns, profileColumn, baseProfile,
    profile_numeric, sample_values, dedupFS, dedupFSAux, load_lazy, strToLower,
    strEndsWith, listBegins, basename, stdField, listMin, listMax, listMean, listVarSample,
    quantileNearest, sortAsc, insertAsc, roundHalfUp, pyFloat, Bind.bind,
    Except.bind, pure, Except.pure, defaultConfig, scenarioAFrame,
    is_numeric_dtype, NUMERIC_DTYPES, Val.asNum]
  norm_num

lemma except_bind_error {ε α β : Type} {x : Except ε α} {g : α → Except ε β} {e : ε}
    (h : x >>= g = .error e) : x = .error e ∨ ∃ a, x = .ok a ∧ g a = .error e := by
  cases x with
  | error e2 =>
    left
    have he : e2 = e := by simpa [Bind.bind, Except.bind] using h
    rw [he]
  | ok a =>
    right
    exact ⟨a, rfl, by simpa [Bind.bind, Except.bind] using h⟩

lemma except_bind_ok {ε α β : Type} {x : Except ε α} {g : α → Except ε β} {b : β}
    (h : x >>= g = .ok b) : ∃ a, x = .ok a ∧ g a = .ok b := by
  cases x with
  | error e2 => simp [Bind.bind, Except.bind] at h
  | ok a => exact ⟨a, rfl, by simpa [Bind.bind, Except.bind] using h⟩

lemma pyFloat_error {o : Option ℚ} {e : PyError} (h : pyFloat o = .error e) :
    e = .typeError := by
  cases o with
  | none =>
    simp only [pyFloat, Except.error.injEq] at h
    exact h.symm
  | some q => simp [pyFloat] at h

lemma profile_numeric_error {xs : List (Option ℚ)} {e : PyError}
    (h : profile_numeric xs = .error e) : e = .typeError := by
  unfold profile_numeric at h
  split at h
  · simp at h
  · rcases except_bind_error h with h1 | ⟨mn, hmn, h⟩
    · exact pyFloat_error h1
    rcases except_bind_error h with h1 | ⟨mx, hmx, h⟩
    · exact pyFloat_error h1
    rcases except_bind_error h with h1 | ⟨me, hme, h⟩
    · exact pyFloat_error h1
    rcases except_bind_error h with h1 | ⟨sd, hsd, h⟩
    · unfold stdField at h1
      split at h1
      · exact pyFloat_error h1
      · simp [pure, Except.pure] at h1
    rcases except_bind_error h with h1 | ⟨q1, hq1, h⟩
    · exact pyFloat_error h1
    rcases except_bind_error h with h1 | ⟨q2, hq2, h⟩
    · exact pyFloat_error h1
    rcases except_bind_error h with h1 | ⟨q3, hq3, h⟩
    · exact pyFloat_error h1
    · simp [pure, Except.pure] at h

lemma profile_categorical_error {name : String} {vals : List (Option Val)} {k : ℕ}
    {e : PyError} (h : profile_categorical name vals k = .error e) :
    e = .keyError "values" := by
  unfold profile_categorical at h
  split at h
  · simp at h
  · split at h
    · simp at h
    · simp only [Except.error.injEq] at h
      exact h.symm

lemma profileColumn_error {rc : ℕ} {cfg : Config} {i : ℕ} {c : Column} {e : PyError}
    (h : profileColumn rc cfg i c = .error e) : e.isValueError = false := by
  unfold profileColumn at h
  split at h
  · rcases except_bind_error h with h1 | ⟨ns, hns, h⟩
    · rw [profile_numeric_error h1]
      rfl
    · simp [pure, Except.pure] at h
  · split at h
    · simp [pure, Except.pure] at h
    · split at h
      · rcases except_bind_error h with h1 | ⟨cs, hcs, h⟩
        · rw [profile_categorical_error h1]
          rfl
        · simp [pure, Except.pure] at h
      · simp [pure, Except.pure] at h

lemma profileColumns_error {rc : ℕ} {cfg : Config} :
    ∀ {idx : ℕ} {cols : List Column} {e : PyError},
      profileColumns rc cfg idx cols = .error e → e.isValueError = false := by
  intro idx cols
  induction cols generalizing idx with
  | nil => intro e h; simp [profileColumns] at h
  | cons c cs ih =>
    intro e h
    unfold profileColumns at h
    rcases except_bind_error h with h1 | ⟨p, hp, h⟩
    · exact profileColumn_error h1
    rcases except_bind_error h with h1 | ⟨rest, hrest, h⟩
    · exact ih h1
    · simp [pure, Except.pure] at h

/-- Claim C10: extension matching is case-insensitive; a path whose extension
lowercases to .csv, .parquet or .pq is accepted by the loader, and profiling
never fails with the unsupported-format ValueError on it (any later failure
is the unrelated TypeError of the numeric aggregations or the KeyError of the
categorical block, never the format error). -/
theorem claim_C10_case_insensitive (stem ext : String) (f : Frame) (cfg : Config)
    (h : strToLower ext = ".csv" ∨ strToLower ext = ".parquet" ∨ strToLower ext = ".pq") :
    (load_lazy (stem ++ ext)).isOk = true ∧
    Option.all (fun e => ! e.isValueError) (errOf (profile_dataset (stem ++ ext) f cfg)) = true := by
  have hload : ∃ fmt, load_lazy (stem ++ ext) = .ok fmt := by
    unfold load_lazy
    rw [strToLower_append]
    rcases h with h | h | h <;> rw [h]
    · split
      · exact ⟨_, rfl⟩
      · rw [if_pos (strEndsWith_append_self _ _)]
        exact ⟨_, rfl⟩
    · rw [if_pos (by rw [strEndsWith_append_self]; rfl)]
      exact ⟨_, rfl⟩
    · rw [if_pos (by rw [strEndsWith_append_self]; simp)]
      exact ⟨_, rfl⟩
  obtain ⟨fmt, hfmt⟩ := hload
  constructor
  · rw [hfmt]; rfl
  · unfold profile_dataset
    rw [hfmt]
    simp only [Bind.bind, Except.bind]
    cases hc : profileColumns (min cfg.maxRows f.height) cfg 0
        (f.cols.map (fun c => { c with vals := c.vals.take cfg.maxRows })) with
    | error e =>
      have h5 := profileColumns_error hc
      simp [errOf, h5]
    | ok cps => simp [errOf, pure, Except.pure]

/-- Witness for claim C10 at the concrete path Data.CSV. -/
theorem claim_C10_case_insensitive_witness :
    (load_lazy ("Data" ++ ".CSV")).isOk = true ∧
    Option.all (fun e => ! e.isValueError)
      (errOf (profile_dataset ("Data" ++ ".CSV") testFrame defaultConfig)) = true :=
  claim_C10_case_insensitive "Data" ".CSV" testFrame defaultConfig (Or.inl (by decide))

lemma dedupFSAux_not_mem_seen {α : Type} [DecidableEq α] :
    ∀ (l seen : List α), ∀ x ∈ dedupFSAux seen l, x ∉ seen := by
  intro l
  induction l with
  | nil => intro seen x hx; simp [dedupFSAux] at hx
  | cons a t ih =>
    intro seen x hx
    unfold dedupFSAux at hx
    split at hx
    · exact ih seen x hx
    · rename_i hnot
      rcases List.mem_cons.mp hx with hxa | hxm
      · subst hxa; exact hnot
      · have hrec := ih (a :: seen) x hxm
        intro hxs
        exact hrec (List.mem_cons_of_mem a hxs)

lemma dedupFSAux_nodup {α : Type} [DecidableEq α] :
    ∀ (l seen : List α), (dedupFSAux seen l).Nodup := by
  intro l
  induction l with
  | nil => intro seen; simp [dedupFSAux]
  | cons a t ih =>
    intro seen
    unfold dedupFSAux
    split
    · exact ih seen
    · rw [List.nodup_cons]
      refine ⟨fun hmem => ?_, ih (a :: seen)⟩
      exact dedupFSAux_not_mem_seen t (a :: seen) a hmem (List.mem_cons_self a seen)

lemma dedupFS_nodup {α : Type} [DecidableEq α] (l : List α) : (dedupFS l).Nodup :=
  dedupFSAux_nodup l []

lemma dedupFS_ne_nil {α : Type} [DecidableEq α] (a : α) (t : List α) :
    dedupFS (a :: t) ≠ [] := by
  unfold dedupFS dedupFSAux
  simp

lemma length_filterMap_add_count {α : Type} [DecidableEq α] (d : List (Option α)) :
    d.length = (d.filterMap id).length + d.count none := by
  induction d with
  | nil => rfl
  | cons o t ih =>
    cases o with
    | none =>
      simp only [List.filterMap_cons, id, List.count_cons, List.length_cons]
      simp only [ih]
      simp
      omega
    | some a =>
      simp only [List.filterMap_cons, id, List.count_cons, List.length_cons]
      simp only [ih]
      simp
      omega

lemma nodup_option_length {α : Type} [DecidableEq α] :
    ∀ {d : List (Option α)}, d.Nodup →
      d.length ≤ (d.filterMap id).length + 1 ∧
      (none ∉ d → d.length = (d.filterMap id).length) := by
  intro d
  induction d with
  | nil => intro _; exact ⟨by simp, fun _ => rfl⟩
  | cons o t ih =>
    intro h
    rw [List.nodup_cons] at h
    rcases h with ⟨ho, ht⟩
    rcases ih ht with ⟨ih1, ih2⟩
    cases o with
    | none =>
      have heq : t.length = (t.filterMap id).length := ih2 ho
      constructor
      · simp only [List.filterMap_cons, id, List.length_cons]
        omega
      · intro hmem
        exact absurd (List.mem_cons_self none t) hmem
    | some a =>
      constructor
      · simp only [List.filterMap_cons, id, List.length_cons]
        omega
      · intro hmem
        have hnt : none ∉ t := fun hm => hmem (List.mem_cons_of_mem _ hm)
        have heq : t.length = (t.filterMap id).length := ih2 hnt
        simp only [List.filterMap_cons, id, List.length_cons]
        omega

lemma dedupFS_length_le {α : Type} [DecidableEq α] (s : List (Option α)) :
    ((dedupFS s).length ≤ (s.filterMap id).length + 1) ∧
    (none ∉ s → (dedupFS s).length ≤ (s.filterMap id).length) := by
  have hnd : (dedupFS s).Nodup := dedupFS_nodup s
  have hsub : dedupFS s ⊆ s := dedupFSAux_subset s []
  have hfm_nodup : ((dedupFS s).filterMap id).Nodup := by
    refine hnd.filterMap ?_
    intro a a' b hb hb'
    simp only [id_eq] at hb hb'
    rw [hb, hb']
  have hfm_sub : (dedupFS s).filterMap id ⊆ s.filterMap id := by
    intro x hx
    rw [List.mem_filterMap] at hx ⊢
    rcases hx with ⟨o, ho, hid⟩
    exact ⟨o, hsub ho, hid⟩
  have hlen_fm : ((dedupFS s).filterMap id).length ≤ (s.filterMap id).length :=
    (hfm_nodup.subperm hfm_sub).length_le
  rcases nodup_option_length hnd with ⟨h1, h2⟩
  constructor
  · omega
  · intro hnone
    have hzero : none ∉ dedupFS s := fun hmem => hnone (hsub hmem)
    have := h2 hzero
    omega

lemma baseProfile_bounds (rc : ℕ) (i : ℕ) (c : Column)
    (hlen : c.vals.length = rc) :
    0 ≤ (baseProfile rc i c).uniqueness ∧
    ((baseProfile rc i c).distinct_count : ℤ) ≤ (baseProfile rc i c).non_null_count + 1 ∧
    ((baseProfile rc i c).uniqueness = 0 ↔ (baseProfile rc i c).non_null_count = 0) ∧
    ((baseProfile rc i c).null_count = 0 →
      ((baseProfile rc i c).distinct_count : ℤ) ≤ (baseProfile rc i c).non_null_count ∧
      (baseProfile rc i c).uniqueness ≤ 1) := by
  have hkle : c.vals.count none ≤ rc := hlen ▸ List.count_le_length none c.vals
  have hfm : c.vals.length = (c.vals.filterMap id).length + c.vals.count none :=
    length_filterMap_add_count c.vals
  have hbounds := dedupFS_length_le c.vals
  have hpos : 0 < rc → 1 ≤ (dedupFS c.vals).length := by
    intro hp
    match hv : c.vals with
    | [] => rw [hv] at hlen; simp at hlen; omega
    | a :: t => exact List.length_pos.mpr (dedupFS_ne_nil a t)
  simp only [baseProfile]
  refine ⟨?_, ?_, ?_, ?_⟩
  · split_ifs with h
    · apply div_nonneg
      · exact Nat.cast_nonneg _
      · exact_mod_cast le_of_lt h
    · exact le_refl 0
  · have h1 := hbounds.1
    omega
  · split_ifs with h
    · have hrc : 0 < rc := by omega
      have hd : 1 ≤ (dedupFS c.vals).length := hpos hrc
      have hnum : ((dedupFS c.vals).length : ℚ) ≠ 0 := by
        exact_mod_cast Nat.pos_iff_ne_zero.mp hd
      have hden : ((((rc : ℤ) - (c.vals.count none : ℤ)) : ℤ) : ℚ) ≠ 0 := by
        exact_mod_cast ne_of_gt h
      exact iff_of_false (div_ne_zero hnum hden) (by omega)
    · exact iff_of_true rfl (by omega)
  · intro hk0
    have hnone : none ∉ c.vals := List.count_eq_zero.mp hk0
    have hd0 := hbounds.2 hnone
    constructor
    · omega
    · split_ifs with h
      · rw [div_le_one (by exact_mod_cast h)]
        have : ((dedupFS c.vals).length : ℤ) ≤ (rc : ℤ) - (c.vals.count none : ℤ) := by omega
        exact_mod_cast this
      · norm_num

lemma profileColumn_ok_base {rc : ℕ} {cfg : Config} {i : ℕ} {c : Column}
    {cp : ColumnProfile} (h : profileColumn rc cfg i c = .ok cp) :
    cp.null_count = (baseProfile rc i c).null_count ∧
    cp.non_null_count = (baseProfile rc i c).non_null_count ∧
    cp.distinct_count = (baseProfile rc i c).distinct_count ∧
    cp.uniqueness = (baseProfile rc i c).uniqueness := by
  unfold profileColumn at h
  split at h
  · rcases except_bind_ok h with ⟨ns, hns, h⟩
    simp only [pure, Except.pure, Except.ok.injEq] at h
    rw [← h]
    exact ⟨rfl, rfl, rfl, rfl⟩
  · split at h
    · simp only [pure, Except.pure, Except.ok.injEq] at h
      rw [← h]
      exact ⟨rfl, rfl, rfl, rfl⟩
    · split at h
      · rcases except_bind_ok h with ⟨cs, hcs, h⟩
        simp only [pure, Except.pure, Except.ok.injEq] at h
        rw [← h]
        exact ⟨rfl, rfl, rfl, rfl⟩
      · simp only [pure, Except.pure, Except.ok.injEq] at h
        rw [← h]
        exact ⟨rfl, rfl, rfl, rfl⟩

lemma profileColumns_mem {rc : ℕ} {cfg : Config} :
    ∀ {cols : List Column} {idx : ℕ} {res : List (String × ColumnProfile)},
      profileColumns rc cfg idx cols = .ok res →
      ∀ pr ∈ res, ∃ i c, c ∈ cols ∧ profileColumn rc cfg i c = .ok pr.2 := by
  intro cols
  induction cols with
  | nil =>
    intro idx res h pr hpr
    unfold profileColumns at h
    have : ([] : List (String × ColumnProfile)) = res := by simpa using h
    rw [← this] at hpr
    simp at hpr
  | cons c cs ih =>
    intro idx res h pr hpr
    unfold profileColumns at h
    rcases except_bind_ok h with ⟨p, hp, h⟩
    rcases except_bind_ok h with ⟨rest, hrest, h⟩
    have hres : (c.name, p) :: rest = res := by simpa [pure, Except.pure] using h
    rw [← hres] at hpr
    rcases List.mem_cons.mp hpr with hpr1 | hpr2
    · refine ⟨idx, c, List.mem_cons_self c cs, ?_⟩
      rw [hpr1]
      exact hp
    · rcases ih hrest pr hpr2 with ⟨i, c2, hc2, hok⟩
      exact ⟨i, c2, List.mem_cons_of_mem c hc2, hok⟩

/-- Counterexample for claim C2: on the Int64 column [1, 2, null] profiling
succeeds through the numeric path and the code sets distinct_count =
n_unique = 3 (null counts as a distinct value) while non_null_count = 2, so
distinct_count exceeds non_null_count and uniqueness = 3/2 lies outside
[0, 1]. -/
theorem claim_C2_counterexample :
    ¬ (∀ cp ∈ colProfilesOf (profile_dataset "m.csv" intMixFrame defaultConfig),
        (cp.distinct_count : ℤ) ≤ cp.non_null_count ∧
        0 ≤ cp.uniqueness ∧ cp.uniqueness ≤ 1) := by
  have hX : profile_dataset "m.csv" intMixFrame defaultConfig =
      .ok { dataset_name := "m.csv", path := "m.csv", row_count := 3,
            column_count := 1,
            columns := [("x",
              { position := 0, dtype := "Int64", non_null_count := 2,
                null_count := 1, completeness := 2 / 3, distinct_count := 3,
                uniqueness := 3 / 2, sample_values := [.num 1, .num 2],
                numeric_stats :=
                  some ⟨some 1, some 2, some (3 / 2), some (1 / 2),
                        some 1, some 2, some 2⟩ })] } := by
    simp +decide [profile_dataset, profileColumns, profileColumn, baseProfile,
      profile_numeric, stdField, sample_values, dedupFS, dedupFSAux, load_lazy,
      strToLower, strEndsWith, listBegins, basename, listMin, listMax, listMean,
      listVarSample, quantileNearest, sortAsc, insertAsc, roundHalfUp, pyFloat,
      Bind.bind, Except.bind, pure, Except.pure, defaultConfig, intMixFrame,
      is_numeric_dtype, NUMERIC_DTYPES, Val.asNum]
    norm_num
  intro hall
  have hmem := hall
    { position := 0, dtype := "Int64", non_null_count := 2,
      null_count := 1, completeness := 2 / 3, distinct_count := 3,
      uniqueness := 3 / 2, sample_values := [.num 1, .num 2],
      numeric_stats :=
        some ⟨some 1, some 2, some (3 / 2), some (1 / 2),
              some 1, some 2, some 2⟩ }
    (by rw [hX]; simp [colProfilesOf])
  rcases hmem with ⟨h1, h2, h3⟩
  norm_num at h1

/-- Claim C2 as amended: distinct_count counts null as a value of its own, so
in general distinct_count ≤ non_null_count + 1 and uniqueness can exceed 1;
for columns without nulls distinct_count ≤ non_null_count and uniqueness lies
in [0, 1]; uniqueness is always non-negative and equals 0 exactly when
non_null_count = 0. -/
theorem claim_C2_distinct_uniqueness (path : String) (f : Frame) (cfg : Config)
    (hwf : f.WF) :
    ∀ cp ∈ colProfilesOf (profile_dataset path f cfg),
      0 ≤ cp.uniqueness ∧
      (cp.distinct_count : ℤ) ≤ cp.non_null_count + 1 ∧
      (cp.uniqueness = 0 ↔ cp.non_null_count = 0) ∧
      (cp.null_count = 0 →
        (cp.distinct_count : ℤ) ≤ cp.non_null_count ∧ cp.uniqueness ≤ 1) := by
  intro cp hcp
  cases hr : profile_dataset path f cfg with
  | error e => rw [hr] at hcp; simp [colProfilesOf] at hcp
  | ok prof =>
    rw [hr] at hcp
    simp only [colProfilesOf, List.mem_map] at hcp
    rcases hcp with ⟨pr, hpr, hsnd⟩
    unfold profile_dataset at hr
    rcases except_bind_ok hr with ⟨fmt, hfmt, hr⟩
    rcases except_bind_ok hr with ⟨cps, hcps, hr⟩
    simp only [pure, Except.pure, Except.ok.injEq] at hr
    have hprof : prof.columns = cps := by rw [← hr]
    rw [hprof] at hpr
    rcases profileColumns_mem hcps pr hpr with ⟨i, c, hc, hok⟩
    rcases List.mem_map.mp hc with ⟨c0, hc0, hct⟩
    have hclen : c.vals.length = min cfg.maxRows f.height := by
      rw [← hct]
      simp [List.length_take]
      rw [hwf c0 hc0]
    have hbase := profileColumn_ok_base hok
    have hb := baseProfile_bounds (min cfg.maxRows f.height) i c hclen
    rw [← hsnd, hbase.1, hbase.2.1, hbase.2.2.1, hbase.2.2.2]
    exact hb

/-- Witness for claim C2 at a concrete null-free file. -/
theorem claim_C2_distinct_uniqueness_witness :
    0 ≤ ((colProfilesOf (profile_dataset "w.csv" intNoNullFrame defaultConfig)).getD 0
        dummyColumnProfile).uniqueness ∧
    (((colProfilesOf (profile_dataset "w.csv" intNoNullFrame defaultConfig)).getD 0
        dummyColumnProfile).distinct_count : ℤ) ≤
      ((colProfilesOf (profile_dataset "w.csv" intNoNullFrame defaultConfig)).getD 0
        dummyColumnProfile).non_null_count + 1 ∧
    (((colProfilesOf (profile_dataset "w.csv" intNoNullFrame defaultConfig)).getD 0
        dummyColumnProfile).uniqueness = 0 ↔
      ((colProfilesOf (profile_dataset "w.csv" intNoNullFrame defaultConfig)).getD 0
        dummyColumnProfile).non_null_count = 0) ∧
    (((colProfilesOf (profile_dataset "w.csv" intNoNullFrame defaultConfig)).getD 0
        dummyColumnProfile).null_count = 0 →
      (((colProfilesOf (profile_dataset "w.csv" intNoNullFrame defaultConfig)).getD 0
          dummyColumnProfile).distinct_count : ℤ) ≤
        ((colProfilesOf (profile_dataset "w.csv" intNoNullFrame defaultConfig)).getD 0
          dummyColumnProfile).non_null_count ∧
      ((colProfilesOf (profile_dataset "w.csv" intNoNullFrame defaultConfig)).getD 0
        dummyColumnProfile).uniqueness ≤ 1) := by
  have hW : profile_dataset "w.csv" intNoNullFrame defaultConfig =
      .ok { dataset_name := "w.csv", path := "w.csv", row_count := 2,
            column_count := 1,
            columns := [("x",
              { position := 0, dtype := "Int64", non_null_count := 2,
                null_count := 0, completeness := 1, distinct_count := 2,
                uniqueness := 1, sample_values := [.num 1, .num 2],
                numeric_stats :=
                  some ⟨some 1, some 2, some (3 / 2), some (1 / 2),
                        some 1, some 2, some 2⟩ })] } := by
    simp +decide [profile_dataset, profileColumns, profileColumn, baseProfile,
      profile_numeric, stdField, sample_values, dedupFS, dedupFSAux, load_lazy,
      strToLower, strEndsWith, listBegins, basename, listMin, listMax, listMean,
      listVarSample, quantileNearest, sortAsc, insertAsc, roundHalfUp, pyFloat,
      Bind.bind, Except.bind, pure, Except.pure, defaultConfig, intNoNullFrame,
      is_numeric_dtype, NUMERIC_DTYPES, Val.asNum]
    norm_num
  apply claim_C2_distinct_uniqueness "w.csv" intNoNullFrame defaultConfig (by decide)
  rw [hW]
  simp [colProfilesOf]

lemma length_insertAsc (x : ℚ) (l : List ℚ) : (insertAsc x l).length = l.length + 1 := by
  induction l with
  | nil => rfl
  | cons y ys ih =>
    unfold insertAsc
    split
    · rfl
    · simp only [List.length_cons, ih]

lemma length_sortAsc (l : List ℚ) : (sortAsc l).length = l.length := by
  induction l with
  | nil => rfl
  | cons x xs ih =>
    show (insertAsc x (sortAsc xs)).length = xs.length + 1
    rw [length_insertAsc, ih]

lemma quantileNearest_isSome {l : List ℚ} (h : l ≠ []) (q : ℚ) :
    ∃ v, quantileNearest l q = some v := by
  unfold quantileNearest
  cases hs : sortAsc l with
  | nil =>
    exfalso
    have hlen := length_sortAsc l
    rw [hs] at hlen
    exact h (List.length_eq_zero.mp hlen.symm)
  | cons y ys => exact ⟨_, rfl⟩

lemma profile_numeric_ok {xs : List (Option ℚ)} (h2 : 2 ≤ (xs.filterMap id).length) :
    ∃ ns, profile_numeric xs = .ok ns := by
  have hlen : ¬ xs.length = 0 := by
    have hle := List.length_filterMap_le id xs
    omega
  obtain ⟨a, t, hnn⟩ : ∃ a t, xs.filterMap id = a :: t := by
    cases hx : xs.filterMap id with
    | nil => rw [hx] at h2; simp at h2
    | cons a t => exact ⟨a, t, rfl⟩
  have hne : xs.filterMap id ≠ [] := by rw [hnn]; simp
  obtain ⟨v1, hq1⟩ := quantileNearest_isSome hne (1 / 4)
  obtain ⟨v2, hq2⟩ := quantileNearest_isSome hne (1 / 2)
  obtain ⟨v3, hq3⟩ := quantileNearest_isSome hne (3 / 4)
  have hmin : listMin (xs.filterMap id) = some (t.foldl min a) := by rw [hnn]; rfl
  have hmax : listMax (xs.filterMap id) = some (t.foldl max a) := by rw [hnn]; rfl
  have hmean : listMean (xs.filterMap id) =
      some ((xs.filterMap id).sum / ((xs.filterMap id).length : ℚ)) := by
    unfold listMean
    rw [if_neg (by omega)]
  have hvar : ∃ m, listVarSample (xs.filterMap id) = some m := by
    unfold listVarSample
    rw [if_pos h2]
    exact ⟨_, rfl⟩
  obtain ⟨m4, hm4⟩ := hvar
  have hstd : ∃ sv, stdField xs (xs.filterMap id) = .ok sv := by
    unfold stdField
    split
    · rw [hm4]
      exact ⟨m4, rfl⟩
    · exact ⟨0, rfl⟩
  obtain ⟨sv, hsv⟩ := hstd
  simp only [one_div] at hq1 hq2 hq3
  refine ⟨⟨some (t.foldl min a), some (t.foldl max a),
           some ((xs.filterMap id).sum / ((xs.filterMap id).length : ℚ)),
           some sv, some v1, some v2, some v3⟩, ?_⟩
  unfold profile_numeric
  rw [if_neg hlen]
  simp [one_div, hmin, hmax, hmean, hsv, hq1, hq2, hq3, pyFloat, Bind.bind, Except.bind,
    pure, Except.pure]

lemma filterMap_id_replicate (n : ℕ) (q : ℚ) :
    (List.replicate n (some q)).filterMap id = List.replicate n q := by
  induction n with
  | zero => rfl
  | succ k ih => simp [List.replicate_succ, ih]

lemma profile_dataset_eq_of {path : String} {f : Frame} {cfg : Config}
    {fmt : SourceFormat} {cps : List (String × ColumnProfile)}
    (hl : load_lazy path = .ok fmt)
    (hc : profileColumns (min cfg.maxRows f.height) cfg 0
      (f.cols.map (fun c => { c with vals := c.vals.take cfg.maxRows })) = .ok cps) :
    profile_dataset path f cfg =
      .ok { dataset_name := basename path, path := path,
            row_count := min cfg.maxRows f.height,
            column_count :=
              (f.cols.map (fun c => { c with vals := c.vals.take cfg.maxRows })).length,
            columns := cps } := by
  unfold profile_dataset
  rw [hl]
  simp only [Bind.bind, Except.bind]
  rw [hc]
  simp [pure, Except.pure]

/-- Claim C8: the read plan is truncated to the configured row cap taken from
the start of the file, so profiling a frame equals profiling its first
maxRows rows (all statistics are computed over the truncated rows only); the
reported row_count of every successful profile is min(row cap, physical
rows); and the 200000-row Scenario D file profiled with the default cap of
100000 reports row_count = 100000. -/
theorem claim_C8_row_cap (path : String) (f : Frame) (cfg : Config) :
    profile_dataset path f cfg = profile_dataset path (Frame.truncate cfg.maxRows f) cfg ∧
    rowCountOf (profile_dataset path f cfg) =
      (profile_dataset path f cfg).toOption.map (fun _ => min cfg.maxRows f.height) ∧
    rowCountOf (profile_dataset "big.csv" bigFrame defaultConfig) = some 100000 := by
  refine ⟨?_, ?_, ?_⟩
  · have hmin : min cfg.maxRows (min cfg.maxRows f.height) = min cfg.maxRows f.height := by
      omega
    simp only [profile_dataset, Frame.truncate, List.map_map, Function.comp_def,
      List.take_take, min_self, hmin]
  · cases hl : load_lazy path with
    | error e =>
      simp [profile_dataset, hl, Bind.bind, Except.bind, rowCountOf, Except.toOption]
    | ok fmt =>
      simp only [profile_dataset, hl, Bind.bind, Except.bind]
      cases hc : profileColumns (min cfg.maxRows f.height) cfg 0
          (f.cols.map (fun c => { c with vals := c.vals.take cfg.maxRows })) with
      | error e => simp [rowCountOf, Except.toOption]
      | ok cps => simp [rowCountOf, Except.toOption, pure, Except.pure]

  · have hl : load_lazy "big.csv" = .ok .csv := by decide
    have hmap : bigFrame.cols.map (fun c => { c with vals := c.vals.take defaultConfig.maxRows }) =
        [bigColTrunc] := rfl
    have htake : bigColTrunc.vals = List.replicate 100000 (some (Val.num 1)) := by
      show (List.replicate 200000 (some (Val.num 1))).take 100000 = _
      rw [List.take_replicate]
      norm_num
    have hvals : bigColTrunc.vals.map (fun o => o.bind Val.asNum) =
        List.replicate 100000 (some (1 : ℚ)) := by
      rw [htake, List.map_replicate]
      rfl
    obtain ⟨ns, hns⟩ := @profile_numeric_ok (List.replicate 100000 (some (1 : ℚ)))
      (by rw [filterMap_id_replicate, List.length_replicate]; norm_num)
    have hd : is_numeric_dtype bigColTrunc.dtype = true := by decide
    have hcol : profileColumn (min defaultConfig.maxRows bigFrame.height) defaultConfig 0
        bigColTrunc =
        .ok { baseProfile (min defaultConfig.maxRows bigFrame.height) 0 bigColTrunc with
              numeric_stats := some ns } := by
      unfold profileColumn
      rw [if_pos hd, hvals, hns]
      simp [Bind.bind, Except.bind, pure, Except.pure]
    have hcols : profileColumns (min defaultConfig.maxRows bigFrame.height) defaultConfig 0
        (bigFrame.cols.map (fun c => { c with vals := c.vals.take defaultConfig.maxRows })) =
        .ok [("x", { baseProfile (min defaultConfig.maxRows bigFrame.height) 0 bigColTrunc with
                     numeric_stats := some ns })] := by
      rw [hmap]
      unfold profileColumns
      rw [hcol]
      simp only [Bind.bind, Except.bind]
      rw [show profileColumns (min defaultConfig.maxRows bigFrame.height) defaultConfig
          (0 + 1) [] = .ok [] from rfl]
      simp only [pure, Except.pure]
      rfl
    rw [profile_dataset_eq_of hl hcols]
    show some (min defaultConfig.maxRows bigFrame.height) = some 100000
    have hm : min defaultConfig.maxRows bigFrame.height = 100000 := by
      rw [show defaultConfig.maxRows = 100000 from rfl, show bigFrame.height = 200000 from rfl]
      omega
    rw [hm]

end DQ
